import Mathlib

/-!
Verification of the per-protocol instruction codec and account-schema layer
of a DEX CPI client (HumidiFi and SolFi V2 adapters).

Byte buffers are modelled as `List Nat` with each element a byte value below
256.  Machine integers are modelled as `Nat` with explicit truncation
(`% 2 ^ 64`, `% 2 ^ 128`) where the source's fixed-width semantics matter.
-/

set_option maxRecDepth 4000

-- ============================================
-- Binary codec primitives shared by the adapters
-- ============================================

/-- Little-endian interpretation of a byte list (mirrors `u64::from_le_bytes`
when applied to 8 bytes). -/
def fromLeBytes (bs : List Nat) : Nat :=
  bs.foldr (fun b acc => b + 256 * acc) 0

/-- Little-endian byte expansion of a value to a fixed width (mirrors
`u64::to_le_bytes` when the width is 8). -/
def toLeBytes : Nat → Nat → List Nat
  | 0, _ => []
  | w + 1, x => x % 256 :: toLeBytes w (x / 256)

/-- Overwrite the bytes of `data` starting at `off` with `src` (mirrors
`data[off..off+src.len()].copy_from_slice(&src)`). -/
def setSlice (data : List Nat) (off : Nat) (src : List Nat) : List Nat :=
  data.take off ++ src ++ data.drop (off + src.length)

-- ============================================
-- HumidiFi adapter (src/humidifi.rs)
-- ============================================

namespace Humidifi

/-- Swap instruction data size. -/
def SWAP_DATA_SIZE : Nat := 25

/-- Swap V1 accounts count. -/
def SWAP_V1_ACCOUNTS_COUNT : Nat := 9

/-- Swap V2 accounts count. -/
def SWAP_V2_ACCOUNTS_COUNT : Nat := 13

/-- XOR keys for decoding pubkeys stored in pool data.  Each 32-byte pubkey
is split into 4 x 8-byte chunks, each XOR'd with the corresponding key. -/
def XOR_KEYS : List Nat :=
  [0xfb5ce87aae443c38, 0x04a2178451bac3c7, 0x04a1178751b9c3c6, 0x04a0178651b8c3c5]

/-- Decode a 32-byte XOR-encrypted pubkey from pool data. -/
def xor_decode_pubkey (encrypted : List Nat) : List Nat :=
  ((List.range 4).map (fun i =>
    toLeBytes 8 (fromLeBytes ((encrypted.drop (i * 8)).take 8) ^^^ XOR_KEYS.getD i 0))).flatten

/-- Encode a 32-byte pubkey using XOR encryption (XOR is symmetric, encoding
is the same as decoding). -/
def xor_encode_pubkey (pubkey : List Nat) : List Nat :=
  xor_decode_pubkey pubkey

/-- Decode a u64 value at a specific chunk index. -/
def xor_decode_u64 (encrypted : Nat) (key_index : Nat) : Nat :=
  encrypted ^^^ XOR_KEYS.getD (key_index % 4) 0

/-- Encode a u64 value at a specific chunk index. -/
def xor_encode_u64 (value : Nat) (key_index : Nat) : Nat :=
  value ^^^ XOR_KEYS.getD (key_index % 4) 0

namespace PoolDataLayout

/-- Quote mint offset (XOR encrypted). -/
def QUOTE_MINT_OFFSET : Nat := 384

/-- Base mint offset (XOR encrypted). -/
def BASE_MINT_OFFSET : Nat := 416

/-- Pool account offset (XOR encrypted). -/
def POOL_ACCOUNT_OFFSET : Nat := 448

/-- Token account offset (XOR encrypted). -/
def TOKEN_ACCOUNT_OFFSET : Nat := 480

/-- Minimum pool data size. -/
def MIN_SIZE : Nat := 512

end PoolDataLayout

/-- Parse quote mint from pool data. -/
def parse_quote_mint (pool_data : List Nat) : Option (List Nat) :=
  if pool_data.length < PoolDataLayout.QUOTE_MINT_OFFSET + 32 then
    none
  else
    some (xor_decode_pubkey
      ((pool_data.drop PoolDataLayout.QUOTE_MINT_OFFSET).take 32))

/-- Parse base mint from pool data. -/
def parse_base_mint (pool_data : List Nat) : Option (List Nat) :=
  if pool_data.length < PoolDataLayout.BASE_MINT_OFFSET + 32 then
    none
  else
    some (xor_decode_pubkey
      ((pool_data.drop PoolDataLayout.BASE_MINT_OFFSET).take 32))

/-- Swap direction.  HumidiFi's is_base_to_quote is inverted relative to
Jupiter's convention for Swap V1. -/
inductive SwapDirection where
  | QuoteToBase
  | BaseToQuote
  deriving DecidableEq, Repr

/-- The is_base_to_quote raw value for the Swap V1 instruction (inverted
from Jupiter's convention). -/
def SwapDirection.to_swap_v1_bool : SwapDirection → Bool
  | SwapDirection.QuoteToBase => true
  | SwapDirection.BaseToQuote => false

/-- The is_base_to_quote raw value for the Swap V2 instruction (same as
Jupiter's convention). -/
def SwapDirection.to_swap_v2_bool : SwapDirection → Bool
  | SwapDirection.QuoteToBase => false
  | SwapDirection.BaseToQuote => true

/-- Create from Jupiter's is_base_to_quote for Swap V1. -/
def SwapDirection.from_jupiter_v1 (jupiter_is_base_to_quote : Bool) : SwapDirection :=
  if jupiter_is_base_to_quote then SwapDirection.BaseToQuote
  else SwapDirection.QuoteToBase

end Humidifi

-- ============================================
-- Account model (pinocchio account/instruction views)
-- ============================================

/-- Capability tag of an instruction account slot. -/
inductive Capability where
  | readonly
  | writable
  | readonly_signer
  deriving DecidableEq, Repr

/-- A live account handle; the codec only ever reads its address. -/
structure AccountView where
  address : Nat
  deriving DecidableEq, Repr

/-- An account slot of an instruction: an address with a capability tag. -/
structure InstructionAccount where
  address : Nat
  capability : Capability
  deriving DecidableEq, Repr

/-- Mirror of `InstructionAccount::readonly`. -/
def InstructionAccount.readonly (address : Nat) : InstructionAccount :=
  ⟨address, Capability.readonly⟩

/-- Mirror of `InstructionAccount::writable`. -/
def InstructionAccount.writable (address : Nat) : InstructionAccount :=
  ⟨address, Capability.writable⟩

/-- Mirror of `InstructionAccount::readonly_signer`. -/
def InstructionAccount.readonly_signer (address : Nat) : InstructionAccount :=
  ⟨address, Capability.readonly_signer⟩

namespace Humidifi

/-- Swap V1 accounts (9 accounts). -/
structure SwapV1Accounts where
  user_wallet : AccountView
  pool : AccountView
  pool_account_1 : AccountView
  pool_account_2 : AccountView
  pool_account_3 : AccountView
  pool_account_4 : AccountView
  clock : AccountView
  token_program : AccountView
  instructions_sysvar : AccountView

/-- Mirror of `SwapV1Accounts::to_instruction_accounts`. -/
def SwapV1Accounts.to_instruction_accounts (a : SwapV1Accounts) : List InstructionAccount :=
  [ InstructionAccount.readonly_signer a.user_wallet.address,
    InstructionAccount.writable a.pool.address,
    InstructionAccount.writable a.pool_account_1.address,
    InstructionAccount.writable a.pool_account_2.address,
    InstructionAccount.writable a.pool_account_3.address,
    InstructionAccount.writable a.pool_account_4.address,
    InstructionAccount.readonly a.clock.address,
    InstructionAccount.readonly a.token_program.address,
    InstructionAccount.readonly a.instructions_sysvar.address ]

/-- Swap V2 accounts (13 accounts). -/
structure SwapV2Accounts where
  pool_account_0 : AccountView
  pool_account_1 : AccountView
  pool_account_2 : AccountView
  pool_account_3 : AccountView
  pool_account_4 : AccountView
  pool_account_5 : AccountView
  clock : AccountView
  token_program_1 : AccountView
  token_program_2 : AccountView
  instructions_sysvar : AccountView
  quote_mint : AccountView
  base_mint : AccountView
  additional_account : AccountView

/-- Mirror of `SwapV2Accounts::to_instruction_accounts`. -/
def SwapV2Accounts.to_instruction_accounts (a : SwapV2Accounts) : List InstructionAccount :=
  [ InstructionAccount.writable a.pool_account_0.address,
    InstructionAccount.writable a.pool_account_1.address,
    InstructionAccount.writable a.pool_account_2.address,
    InstructionAccount.writable a.pool_account_3.address,
    InstructionAccount.writable a.pool_account_4.address,
    InstructionAccount.writable a.pool_account_5.address,
    InstructionAccount.readonly a.clock.address,
    InstructionAccount.readonly a.token_program_1.address,
    InstructionAccount.readonly a.token_program_2.address,
    InstructionAccount.readonly a.instructions_sysvar.address,
    InstructionAccount.readonly a.quote_mint.address,
    InstructionAccount.readonly a.base_mint.address,
    InstructionAccount.readonly a.additional_account.address ]

/-- Swap instruction arguments (the decoded values; the wire form is
XOR-obfuscated). -/
structure SwapArgs where
  swap_id : Nat
  direction : SwapDirection

/-- Mirror of `SwapArgs::new`. -/
def SwapArgs.new (swap_id : Nat) (direction : SwapDirection) : SwapArgs :=
  ⟨swap_id, direction⟩

/-- Serialize to XOR-obfuscated instruction data for Swap V1 (25 bytes):
bytes 0..8 and 8..16 are XOR-encrypted chunks, byte 16 carries the direction
bit over the observed base value 0x38, bytes 17..25 are an XOR-encrypted
placeholder chunk. -/
def SwapArgs.to_bytes_v1 (a : SwapArgs) : List Nat :=
  let d0 := List.replicate SWAP_DATA_SIZE 0
  let d1 := setSlice d0 0 (toLeBytes 8 (xor_encode_u64 a.swap_id 0))
  let d2 := setSlice d1 8 (toLeBytes 8 (xor_encode_u64 0 1))
  let d3 := d2.set 16
    (if a.direction.to_swap_v1_bool then 0x38 ||| 0x01 else 0x38 &&& 0xFE)
  setSlice d3 17 (toLeBytes 8 (xor_encode_u64 0 3))

/-- Serialize to XOR-obfuscated instruction data for Swap V2 (same layout as
V1 but with the V2 direction logic at byte 16). -/
def SwapArgs.to_bytes_v2 (a : SwapArgs) : List Nat :=
  let d0 := List.replicate SWAP_DATA_SIZE 0
  let d1 := setSlice d0 0 (toLeBytes 8 (xor_encode_u64 a.swap_id 0))
  let d2 := setSlice d1 8 (toLeBytes 8 (xor_encode_u64 0 1))
  let d3 := d2.set 16
    (if a.direction.to_swap_v2_bool then 0x38 ||| 0x01 else 0x38 &&& 0xFE)
  setSlice d3 17 (toLeBytes 8 (xor_encode_u64 0 3))

end Humidifi

-- ============================================
-- SolFi V2 adapter (src/solfi_v2.rs)
-- ============================================

namespace SolfiV2

/-- Swap instruction ID (single byte, not an Anchor discriminator). -/
def SWAP_INSTRUCTION_ID : Nat := 0x07

/-- Swap instruction data size. -/
def SWAP_DATA_SIZE : Nat := 25

/-- Number of accounts required for swap. -/
def SWAP_ACCOUNTS_COUNT : Nat := 13

/-- Market type 0xFF - most common. -/
def MARKET_TYPE_FF : Nat := 0xFF

/-- Market type 0xFE. -/
def MARKET_TYPE_FE : Nat := 0xFE

/-- Market type 0xFD. -/
def MARKET_TYPE_FD : Nat := 0xFD

/-- Market type 0xFC. -/
def MARKET_TYPE_FC : Nat := 0xFC

/-- Swap side (direction). -/
inductive SwapSide where
  | Buy
  | Sell
  deriving DecidableEq, Repr

/-- Convert to u64 for instruction data (Buy = 0, Sell = 1). -/
def SwapSide.to_u64 : SwapSide → Nat
  | SwapSide.Buy => 0
  | SwapSide.Sell => 1

/-- Create from boolean (true = Sell, false = Buy). -/
def SwapSide.from_is_sell (is_sell : Bool) : SwapSide :=
  if is_sell then SwapSide.Sell else SwapSide.Buy

/-- Swap accounts (13 accounts). -/
structure SwapAccounts where
  market_state : AccountView
  authority : AccountView
  base_vault : AccountView
  quote_vault : AccountView
  user_base_account : AccountView
  user_quote_account : AccountView
  fee_receiver : AccountView
  referral_account : AccountView
  base_mint : AccountView
  quote_mint : AccountView
  token_program : AccountView
  token_program_2 : AccountView
  sysvar_instructions : AccountView

/-- Mirror of `SwapAccounts::to_instruction_accounts`. -/
def SwapAccounts.to_instruction_accounts (a : SwapAccounts) : List InstructionAccount :=
  [ InstructionAccount.writable a.market_state.address,
    InstructionAccount.readonly a.authority.address,
    InstructionAccount.writable a.base_vault.address,
    InstructionAccount.writable a.quote_vault.address,
    InstructionAccount.writable a.user_base_account.address,
    InstructionAccount.writable a.user_quote_account.address,
    InstructionAccount.writable a.fee_receiver.address,
    InstructionAccount.readonly a.referral_account.address,
    InstructionAccount.readonly a.base_mint.address,
    InstructionAccount.readonly a.quote_mint.address,
    InstructionAccount.readonly a.token_program.address,
    InstructionAccount.readonly a.token_program_2.address,
    InstructionAccount.readonly a.sysvar_instructions.address ]

/-- Swap instruction arguments.  Data layout (25 bytes total):
byte 0 holds the instruction id 0x07, bytes 1..9 amount_in (u64 LE),
bytes 9..17 min_amount_out (u64 LE), bytes 17..25 side (u64 LE). -/
structure SwapArgs where
  amount_in : Nat
  min_amount_out : Nat
  side : SwapSide

/-- Mirror of `SwapArgs::new`. -/
def SwapArgs.new (amount_in min_amount_out : Nat) (side : SwapSide) : SwapArgs :=
  ⟨amount_in, min_amount_out, side⟩

/-- Create buy swap (Quote to Base). -/
def SwapArgs.buy (amount_in min_amount_out : Nat) : SwapArgs :=
  SwapArgs.new amount_in min_amount_out SwapSide.Buy

/-- Create sell swap (Base to Quote). -/
def SwapArgs.sell (amount_in min_amount_out : Nat) : SwapArgs :=
  SwapArgs.new amount_in min_amount_out SwapSide.Sell

/-- Mirror of `SwapArgs::to_bytes`. -/
def SwapArgs.to_bytes (a : SwapArgs) : List Nat :=
  let d0 := List.replicate SWAP_DATA_SIZE 0
  let d1 := d0.set 0 SWAP_INSTRUCTION_ID
  let d2 := setSlice d1 1 (toLeBytes 8 a.amount_in)
  let d3 := setSlice d2 9 (toLeBytes 8 a.min_amount_out)
  setSlice d3 17 (toLeBytes 8 a.side.to_u64)

namespace MarketStateLayout

/-- Market type discriminant offset (first byte). -/
def MARKET_TYPE_OFFSET : Nat := 0

/-- Base mint pubkey offset. -/
def BASE_MINT_OFFSET : Nat := 8

/-- Quote mint pubkey offset. -/
def QUOTE_MINT_OFFSET : Nat := 40

/-- Base vault pubkey offset. -/
def BASE_VAULT_OFFSET : Nat := 72

/-- Quote vault pubkey offset. -/
def QUOTE_VAULT_OFFSET : Nat := 104

/-- Fee rate numerator offset. -/
def FEE_RATE_OFFSET : Nat := 136

/-- Account size. -/
def SIZE : Nat := 1728

/-- Minimum expected size. -/
def MIN_SIZE : Nat := 200

end MarketStateLayout

/-- Parse market type from a market state account (the byte at offset 0). -/
def parse_market_type (data : List Nat) : Option Nat :=
  match data with
  | [] => none
  | b :: _ => some b

/-- Check whether a market type tag is one of the four known discriminants. -/
def is_valid_market_type (market_type : Nat) : Bool :=
  market_type == MARKET_TYPE_FF || market_type == MARKET_TYPE_FE ||
  market_type == MARKET_TYPE_FD || market_type == MARKET_TYPE_FC

/-- Parse base vault address from market state. -/
def parse_base_vault (data : List Nat) : Option (List Nat) :=
  if data.length < MarketStateLayout.BASE_VAULT_OFFSET + 32 then
    none
  else
    some ((data.drop MarketStateLayout.BASE_VAULT_OFFSET).take 32)

/-- Parse quote vault address from market state. -/
def parse_quote_vault (data : List Nat) : Option (List Nat) :=
  if data.length < MarketStateLayout.QUOTE_VAULT_OFFSET + 32 then
    none
  else
    some ((data.drop MarketStateLayout.QUOTE_VAULT_OFFSET).take 32)

/-- Expected output for a constant product AMM, mirroring the source's u128
checked arithmetic and final cast to u64. -/
def calculate_output_amount (amount_in reserve_in reserve_out : Nat) : Nat :=
  if reserve_in == 0 || reserve_out == 0 || amount_in == 0 then
    0
  else
    let numerator :=
      if reserve_out * amount_in < 2 ^ 128 then reserve_out * amount_in else 0
    let denominator :=
      if reserve_in + amount_in < 2 ^ 128 then reserve_in + amount_in else 1
    numerator / denominator % 2 ^ 64

end SolfiV2

-- ============================================
-- Codec helper lemmas
-- ============================================

@[simp] theorem fromLeBytes_nil : fromLeBytes [] = 0 := rfl

@[simp] theorem fromLeBytes_cons (b : Nat) (l : List Nat) :
    fromLeBytes (b :: l) = b + 256 * fromLeBytes l := rfl

theorem toLeBytes_length (w x : Nat) : (toLeBytes w x).length = w := by
  induction w generalizing x with
  | zero => rfl
  | succ w ih => simp [toLeBytes, ih]

theorem fromLeBytes_toLeBytes (w x : Nat) :
    fromLeBytes (toLeBytes w x) = x % 256 ^ w := by
  induction w generalizing x with
  | zero => simp [toLeBytes, Nat.mod_one]
  | succ w ih =>
      rw [toLeBytes, fromLeBytes_cons, ih (x / 256), pow_succ']
      have h1 : x % (256 * 256 ^ w) % 256 = x % 256 :=
        Nat.mod_mod_of_dvd x (Dvd.intro _ rfl)
      have h2 : x % (256 * 256 ^ w) / 256 = x / 256 % 256 ^ w :=
        Nat.mod_mul_right_div_self x 256 (256 ^ w)
      have h3 := Nat.div_add_mod (x % (256 * 256 ^ w)) 256
      omega

theorem toLeBytes_fromLeBytes (bs : List Nat) (hb : ∀ b ∈ bs, b < 256) :
    toLeBytes bs.length (fromLeBytes bs) = bs := by
  induction bs with
  | nil => rfl
  | cons b rest ih =>
      have hb0 : b < 256 := hb b (by simp)
      have hrest : ∀ x ∈ rest, x < 256 := fun x hx => hb x (by simp [hx])
      rw [List.length_cons, toLeBytes, fromLeBytes_cons]
      have hm : (b + 256 * fromLeBytes rest) % 256 = b := by omega
      have hd : (b + 256 * fromLeBytes rest) / 256 = fromLeBytes rest := by omega
      rw [hm, hd, ih hrest]

theorem fromLeBytes_lt (bs : List Nat) (hb : ∀ b ∈ bs, b < 256) :
    fromLeBytes bs < 256 ^ bs.length := by
  induction bs with
  | nil => simp
  | cons b rest ih =>
      have hb0 : b < 256 := hb b (by simp)
      have hrest : ∀ x ∈ rest, x < 256 := fun x hx => hb x (by simp [hx])
      have h := ih hrest
      rw [fromLeBytes_cons, List.length_cons, pow_succ']
      omega

theorem chunk_roundtrip (bs : List Nat) (h8 : bs.length = 8)
    (hb : ∀ b ∈ bs, b < 256) (k : Nat) (hk : k < 2 ^ 64) :
    toLeBytes 8 (fromLeBytes (toLeBytes 8 (fromLeBytes bs ^^^ k)) ^^^ k) = bs := by
  have hlt : fromLeBytes bs < 2 ^ 64 := by
    have h := fromLeBytes_lt bs hb
    rw [h8] at h
    calc fromLeBytes bs < 256 ^ 8 := h
      _ = 2 ^ 64 := by norm_num
  have hx : fromLeBytes bs ^^^ k < 2 ^ 64 := Nat.xor_lt_two_pow hlt hk
  rw [fromLeBytes_toLeBytes, show (256 : Nat) ^ 8 = 2 ^ 64 by norm_num,
    Nat.mod_eq_of_lt hx, Nat.xor_cancel_right, ← h8, toLeBytes_fromLeBytes bs hb]

theorem xor_decode_pubkey_blocks (P Q R S : List Nat) (hP : P.length = 8)
    (hQ : Q.length = 8) (hR : R.length = 8) :
    Humidifi.xor_decode_pubkey (P ++ (Q ++ (R ++ S))) =
      toLeBytes 8 (fromLeBytes P ^^^ 0xfb5ce87aae443c38) ++
      (toLeBytes 8 (fromLeBytes Q ^^^ 0x04a2178451bac3c7) ++
      (toLeBytes 8 (fromLeBytes R ^^^ 0x04a1178751b9c3c6) ++
      toLeBytes 8 (fromLeBytes (S.take 8) ^^^ 0x04a0178651b8c3c5))) := by
  have d8 : (P ++ (Q ++ (R ++ S))).drop 8 = Q ++ (R ++ S) := List.drop_left' hP
  have d16 : (P ++ (Q ++ (R ++ S))).drop 16 = R ++ S := by
    rw [show (16 : Nat) = 8 + 8 from rfl, ← List.drop_drop, d8]
    exact List.drop_left' hQ
  have d24 : (P ++ (Q ++ (R ++ S))).drop 24 = S := by
    rw [show (24 : Nat) = 16 + 8 from rfl, ← List.drop_drop, d16]
    exact List.drop_left' hR
  have t0 : (P ++ (Q ++ (R ++ S))).take 8 = P := List.take_left' hP
  have t8 : ((P ++ (Q ++ (R ++ S))).drop 8).take 8 = Q := by
    rw [d8]
    exact List.take_left' hQ
  have t16 : ((P ++ (Q ++ (R ++ S))).drop 16).take 8 = R := by
    rw [d16]
    exact List.take_left' hR
  simp only [Humidifi.xor_decode_pubkey,
    show List.range 4 = [0, 1, 2, 3] from rfl, List.map_cons, List.map_nil,
    List.flatten_cons, List.flatten_nil, List.append_nil]
  norm_num
  rw [t0, t8, t16, d24]
  rfl

theorem xor_decode_pubkey_involutive (v : List Nat) (h32 : v.length = 32)
    (hb : ∀ b ∈ v, b < 256) :
    Humidifi.xor_decode_pubkey (Humidifi.xor_decode_pubkey v) = v := by
  obtain ⟨P, r1, rfl, hP⟩ : ∃ P r1, v = P ++ r1 ∧ P.length = 8 :=
    ⟨v.take 8, v.drop 8, (List.take_append_drop 8 v).symm,
      by rw [List.length_take]; omega⟩
  have hr1 : r1.length = 24 := by
    rw [List.length_append, hP] at h32
    omega
  obtain ⟨Q, r2, rfl, hQ⟩ : ∃ Q r2, r1 = Q ++ r2 ∧ Q.length = 8 :=
    ⟨r1.take 8, r1.drop 8, (List.take_append_drop 8 r1).symm,
      by rw [List.length_take]; omega⟩
  have hr2 : r2.length = 16 := by
    rw [List.length_append, hQ] at hr1
    omega
  obtain ⟨R, S, rfl, hR⟩ : ∃ R S, r2 = R ++ S ∧ R.length = 8 :=
    ⟨r2.take 8, r2.drop 8, (List.take_append_drop 8 r2).symm,
      by rw [List.length_take]; omega⟩
  have hS : S.length = 8 := by
    rw [List.length_append, hR] at hr2
    omega
  have hbP : ∀ b ∈ P, b < 256 := fun b h => hb b (by simp [h])
  have hbQ : ∀ b ∈ Q, b < 256 := fun b h => hb b (by simp [h])
  have hbR : ∀ b ∈ R, b < 256 := fun b h => hb b (by simp [h])
  have hbS : ∀ b ∈ S, b < 256 := fun b h => hb b (by simp [h])
  rw [xor_decode_pubkey_blocks P Q R S hP hQ hR,
    List.take_of_length_le (le_of_eq hS),
    xor_decode_pubkey_blocks _ _ _ _ (toLeBytes_length 8 _) (toLeBytes_length 8 _)
      (toLeBytes_length 8 _),
    List.take_of_length_le (le_of_eq (toLeBytes_length 8 _)),
    chunk_roundtrip P hP hbP _ (by norm_num),
    chunk_roundtrip Q hQ hbQ _ (by norm_num),
    chunk_roundtrip R hR hbR _ (by norm_num),
    chunk_roundtrip S hS hbS _ (by norm_num)]

-- ============================================
-- Serializer and parser normal forms
-- ============================================

theorem to_bytes_v1_eq (a : Humidifi.SwapArgs) :
    a.to_bytes_v1 =
      toLeBytes 8 (a.swap_id ^^^ 0xfb5ce87aae443c38) ++
      (toLeBytes 8 0x04a2178451bac3c7 ++
      ((if a.direction.to_swap_v1_bool then 0x39 else 0x38) ::
      toLeBytes 8 0x04a0178651b8c3c5)) := rfl

theorem to_bytes_v2_eq (a : Humidifi.SwapArgs) :
    a.to_bytes_v2 =
      toLeBytes 8 (a.swap_id ^^^ 0xfb5ce87aae443c38) ++
      (toLeBytes 8 0x04a2178451bac3c7 ++
      ((if a.direction.to_swap_v2_bool then 0x39 else 0x38) ::
      toLeBytes 8 0x04a0178651b8c3c5)) := rfl

theorem solfi_to_bytes_eq (a : SolfiV2.SwapArgs) :
    a.to_bytes =
      SolfiV2.SWAP_INSTRUCTION_ID ::
      (toLeBytes 8 a.amount_in ++
      (toLeBytes 8 a.min_amount_out ++ toLeBytes 8 a.side.to_u64)) := rfl

theorem parse_quote_mint_eq (pd : List Nat) :
    Humidifi.parse_quote_mint pd =
      if pd.length < 416 then none
      else some (Humidifi.xor_decode_pubkey ((pd.drop 384).take 32)) := rfl

theorem parse_base_mint_eq (pd : List Nat) :
    Humidifi.parse_base_mint pd =
      if pd.length < 448 then none
      else some (Humidifi.xor_decode_pubkey ((pd.drop 416).take 32)) := rfl

theorem parse_base_vault_eq (d : List Nat) :
    SolfiV2.parse_base_vault d =
      if d.length < 104 then none else some ((d.drop 72).take 32) := rfl

theorem parse_quote_vault_eq (d : List Nat) :
    SolfiV2.parse_quote_vault d =
      if d.length < 136 then none else some ((d.drop 104).take 32) := rfl

-- ============================================
-- Claim theorems
-- ============================================

/-- Claim C1: the XOR obfuscation transform is an involution: for every
32-byte array v, xor_decode_pubkey (xor_encode_pubkey v) = v and
xor_encode_pubkey (xor_decode_pubkey v) = v under the fixed 4-key keyset
XOR_KEYS; likewise, for every u64 x and every index i,
xor_decode_u64 (xor_encode_u64 x i) i = x. -/
theorem c1_xor_involution :
    (∀ v : List Nat, v.length = 32 → (∀ b ∈ v, b < 256) →
      Humidifi.xor_decode_pubkey (Humidifi.xor_encode_pubkey v) = v ∧
      Humidifi.xor_encode_pubkey (Humidifi.xor_decode_pubkey v) = v) ∧
    (∀ x i : Nat, Humidifi.xor_decode_u64 (Humidifi.xor_encode_u64 x i) i = x) := by
  constructor
  · intro v h32 hb
    have h := xor_decode_pubkey_involutive v h32 hb
    exact ⟨h, h⟩
  · intro x i
    exact Nat.xor_cancel_right _ _

/-- Claim C1 witness at a concrete 32-byte value and a concrete u64. -/
theorem c1_xor_involution_witness :
    Humidifi.xor_decode_pubkey (Humidifi.xor_encode_pubkey (List.replicate 32 1)) =
      List.replicate 32 1 ∧
    Humidifi.xor_decode_u64 (Humidifi.xor_encode_u64 12345 2) 2 = 12345 :=
  ⟨(c1_xor_involution.1 (List.replicate 32 1) (by decide) (by decide)).1,
   c1_xor_involution.2 12345 2⟩

theorem getD16_block (A B C : List Nat) (c : Nat) (hA : A.length = 8)
    (hB : B.length = 8) : (A ++ (B ++ (c :: C))).getD 16 0 = c := by
  rw [List.getD_eq_getElem?_getD, List.getElem?_append_right (by omega), hA,
    List.getElem?_append_right (by omega), hB]
  simp

theorem to_bytes_v1_byte16 (a : Humidifi.SwapArgs) :
    a.to_bytes_v1.getD 16 0 =
      if a.direction.to_swap_v1_bool then 57 else 56 := by
  rw [to_bytes_v1_eq]
  exact getD16_block _ _ _ _ (toLeBytes_length 8 _) (toLeBytes_length 8 _)

theorem to_bytes_v2_byte16 (a : Humidifi.SwapArgs) :
    a.to_bytes_v2.getD 16 0 =
      if a.direction.to_swap_v2_bool then 57 else 56 := by
  rw [to_bytes_v2_eq]
  exact getD16_block _ _ _ _ (toLeBytes_length 8 _) (toLeBytes_length 8 _)

/-- Claim C2: for HumidiFi, the semantic direction QuoteToBase maps to raw
value true for Swap V1 (and bit 0 of byte 16 of to_bytes_v1 is set) while
the same direction maps to raw value false for Swap V2 (bit 0 of byte 16 of
to_bytes_v2 is clear); BaseToQuote maps to the respective opposite raw
values. -/
theorem c2_direction_mapping :
    Humidifi.SwapDirection.QuoteToBase.to_swap_v1_bool = true ∧
    Humidifi.SwapDirection.QuoteToBase.to_swap_v2_bool = false ∧
    Humidifi.SwapDirection.BaseToQuote.to_swap_v1_bool = false ∧
    Humidifi.SwapDirection.BaseToQuote.to_swap_v2_bool = true ∧
    (∀ s : Nat,
      (Humidifi.SwapArgs.mk s Humidifi.SwapDirection.QuoteToBase).to_bytes_v1.getD 16 0 % 2 = 1 ∧
      (Humidifi.SwapArgs.mk s Humidifi.SwapDirection.QuoteToBase).to_bytes_v2.getD 16 0 % 2 = 0 ∧
      (Humidifi.SwapArgs.mk s Humidifi.SwapDirection.BaseToQuote).to_bytes_v1.getD 16 0 % 2 = 0 ∧
      (Humidifi.SwapArgs.mk s Humidifi.SwapDirection.BaseToQuote).to_bytes_v2.getD 16 0 % 2 = 1) := by
  refine ⟨rfl, rfl, rfl, rfl, fun s => ⟨?_, ?_, ?_, ?_⟩⟩
  · rw [to_bytes_v1_byte16]
    norm_num [Humidifi.SwapDirection.to_swap_v1_bool]
  · rw [to_bytes_v2_byte16]
    norm_num [Humidifi.SwapDirection.to_swap_v2_bool]
  · rw [to_bytes_v1_byte16]
    norm_num [Humidifi.SwapDirection.to_swap_v1_bool]
  · rw [to_bytes_v2_byte16]
    norm_num [Humidifi.SwapDirection.to_swap_v2_bool]

/-- Claim C3: for SolFi V2, SwapArgs.sell 1000000 0 serializes to the exact
25-byte sequence 0x07, LE8 of 1000000, LE8 of 0, LE8 of 1; in general
to_bytes lays out the instruction id, amount_in, min_amount_out and side in
that order with total length 25. -/
theorem c3_solfi_to_bytes_layout :
    (SolfiV2.SwapArgs.sell 1000000 0).to_bytes =
      [0x07, 0x40, 0x42, 0x0f, 0, 0, 0, 0, 0,
       0, 0, 0, 0, 0, 0, 0, 0,
       1, 0, 0, 0, 0, 0, 0, 0] ∧
    (∀ a : SolfiV2.SwapArgs,
      a.to_bytes =
        SolfiV2.SWAP_INSTRUCTION_ID ::
        (toLeBytes 8 a.amount_in ++
        (toLeBytes 8 a.min_amount_out ++ toLeBytes 8 a.side.to_u64)) ∧
      a.to_bytes.length = 25) := by
  exact ⟨by decide, fun a => ⟨solfi_to_bytes_eq a, rfl⟩⟩

/-- Claim C4 counterexample: at exactly one byte less than the declared
minimum size (511 for HumidiFi, 199 for SolFi V2) the field parsers do NOT
all return none — fields lying entirely below that length still parse. -/
theorem c4_counterexample :
    Humidifi.parse_quote_mint (List.replicate 511 0) ≠ none ∧
    Humidifi.parse_base_mint (List.replicate 511 0) ≠ none ∧
    SolfiV2.parse_base_vault (List.replicate 199 0) ≠ none ∧
    SolfiV2.parse_quote_vault (List.replicate 199 0) ≠ none := by
  refine ⟨?_, ?_, ?_, ?_⟩ <;> decide

/-- Claim C4 (amended): each field parser returns none when the buffer is
shorter than that field's own offset plus width; the parsers bound-check per
field, not against the layout's MIN_SIZE, so a buffer one byte short of
MIN_SIZE still parses fields lying entirely below its length. -/
theorem c4_field_bound_none :
    (∀ d : List Nat, d.length < 416 → Humidifi.parse_quote_mint d = none) ∧
    (∀ d : List Nat, d.length < 448 → Humidifi.parse_base_mint d = none) ∧
    (∀ d : List Nat, d.length < 104 → SolfiV2.parse_base_vault d = none) ∧
    (∀ d : List Nat, d.length < 136 → SolfiV2.parse_quote_vault d = none) := by
  refine ⟨fun d h => ?_, fun d h => ?_, fun d h => ?_, fun d h => ?_⟩
  · rw [parse_quote_mint_eq, if_pos h]
  · rw [parse_base_mint_eq, if_pos h]
  · rw [parse_base_vault_eq, if_pos h]
  · rw [parse_quote_vault_eq, if_pos h]

/-- Claim C4 witness: buffers one byte short of each field's own bound. -/
theorem c4_field_bound_none_witness :
    Humidifi.parse_quote_mint (List.replicate 415 0) = none ∧
    Humidifi.parse_base_mint (List.replicate 447 0) = none ∧
    SolfiV2.parse_base_vault (List.replicate 103 0) = none ∧
    SolfiV2.parse_quote_vault (List.replicate 135 0) = none :=
  ⟨c4_field_bound_none.1 _ (by simp),
   c4_field_bound_none.2.1 _ (by simp),
   c4_field_bound_none.2.2.1 _ (by simp),
   c4_field_bound_none.2.2.2 _ (by simp)⟩

/-- Claim C5: each account-schema builder returns the frozen fixed-arity,
fixed-order, capability-tagged list: HumidiFi Swap V1 has 9 entries
(readonly-signer then five writable then three readonly), HumidiFi Swap V2
has 13 entries (six writable then seven readonly), and SolFi V2 has 13
entries with writable exactly at positions 0, 2, 3, 4, 5, 6 — for every set
of account handles. -/
theorem c5_account_schemas :
    ∀ (a : Humidifi.SwapV1Accounts) (b : Humidifi.SwapV2Accounts)
      (c : SolfiV2.SwapAccounts),
      a.to_instruction_accounts.length = 9 ∧
      a.to_instruction_accounts.map InstructionAccount.capability =
        [Capability.readonly_signer, Capability.writable, Capability.writable,
         Capability.writable, Capability.writable, Capability.writable,
         Capability.readonly, Capability.readonly, Capability.readonly] ∧
      b.to_instruction_accounts.length = 13 ∧
      b.to_instruction_accounts.map InstructionAccount.capability =
        [Capability.writable, Capability.writable, Capability.writable,
         Capability.writable, Capability.writable, Capability.writable,
         Capability.readonly, Capability.readonly, Capability.readonly,
         Capability.readonly, Capability.readonly, Capability.readonly,
         Capability.readonly] ∧
      c.to_instruction_accounts.length = 13 ∧
      c.to_instruction_accounts.map InstructionAccount.capability =
        [Capability.writable, Capability.readonly, Capability.writable,
         Capability.writable, Capability.writable, Capability.writable,
         Capability.writable, Capability.readonly, Capability.readonly,
         Capability.readonly, Capability.readonly, Capability.readonly,
         Capability.readonly] := by
  intro a b c
  exact ⟨rfl, rfl, rfl, rfl, rfl, rfl⟩

/-- Claim C6: HumidiFi's obfuscated-field parsers return some exactly when
the buffer is long enough for the field, and the returned value is the
XOR-decoded 32-byte slice at the field's offset; the parsers are pure
functions of the buffer. -/
theorem c6_obfuscated_parsers :
    ∀ pd : List Nat,
      (Humidifi.parse_quote_mint pd = none ↔ pd.length < 416) ∧
      (416 ≤ pd.length →
        Humidifi.parse_quote_mint pd =
          some (Humidifi.xor_decode_pubkey ((pd.drop 384).take 32))) ∧
      (Humidifi.parse_base_mint pd = none ↔ pd.length < 448) ∧
      (448 ≤ pd.length →
        Humidifi.parse_base_mint pd =
          some (Humidifi.xor_decode_pubkey ((pd.drop 416).take 32))) := by
  intro pd
  refine ⟨?_, fun h => ?_, ?_, fun h => ?_⟩
  · rw [parse_quote_mint_eq]
    split <;> simp_all
  · rw [parse_quote_mint_eq, if_neg (by omega)]
  · rw [parse_base_mint_eq]
    split <;> simp_all
  · rw [parse_base_mint_eq, if_neg (by omega)]

/-- Claim C6 witness at a concrete 448-byte buffer. -/
theorem c6_obfuscated_parsers_witness :
    Humidifi.parse_quote_mint (List.replicate 448 0) =
      some (Humidifi.xor_decode_pubkey
        (((List.replicate 448 0).drop 384).take 32)) ∧
    Humidifi.parse_base_mint (List.replicate 448 0) =
      some (Humidifi.xor_decode_pubkey
        (((List.replicate 448 0).drop 416).take 32)) :=
  ⟨(c6_obfuscated_parsers (List.replicate 448 0)).2.1 (by simp),
   (c6_obfuscated_parsers (List.replicate 448 0)).2.2.2 (by simp)⟩

/-- Claim C7 counterexample: the keyset has exactly 4 entries, yet decoding
with the out-of-range key index 7 produces a value (silently substituting
key 7 mod 4 = 3) instead of reporting a configuration error. -/
theorem c7_counterexample :
    Humidifi.XOR_KEYS.length = 4 ∧
    Humidifi.xor_decode_u64 0 7 = Humidifi.XOR_KEYS.getD 3 0 :=
  ⟨rfl, rfl⟩

/-- Claim C7 (amended): the decode/encode operations are total and have no
error path: the fixed 4-key keyset exactly covers the 32-byte field
(4 keys times 8 bytes), xor_decode_u64 reduces any key index modulo the
keyset length (silently substituting key i mod 4 for out-of-range i), and
xor_decode_pubkey always produces a full 32-byte output. -/
theorem c7_keyset_total :
    (∀ x i : Nat, Humidifi.xor_decode_u64 x i =
      x ^^^ Humidifi.XOR_KEYS.getD (i % 4) 0) ∧
    (∀ x i : Nat, Humidifi.xor_decode_u64 x i = Humidifi.xor_decode_u64 x (i % 4)) ∧
    Humidifi.XOR_KEYS.length * 8 = 32 ∧
    (∀ v : List Nat, (Humidifi.xor_decode_pubkey v).length = 32) := by
  refine ⟨fun x i => rfl, fun x i => ?_, rfl, fun v => ?_⟩
  · unfold Humidifi.xor_decode_u64
    rw [Nat.mod_mod_of_dvd i dvd_rfl]
  · simp [Humidifi.xor_decode_pubkey, show List.range 4 = [0, 1, 2, 3] from rfl,
      toLeBytes_length]

/-- Claim C8: SolFi V2's market-type validator accepts exactly the four
known discriminant tags 0xFF, 0xFE, 0xFD, 0xFC, and parse_market_type
returns none exactly on the empty buffer and otherwise the first byte;
unknown tags are reported via a false result, never via a panic. -/
theorem c8_market_type :
    (∀ t : Nat, SolfiV2.is_valid_market_type t = true ↔
      (t = 0xFF ∨ t = 0xFE ∨ t = 0xFD ∨ t = 0xFC)) ∧
    (∀ d : List Nat, SolfiV2.parse_market_type d = none ↔ d = []) ∧
    (∀ (b : Nat) (l : List Nat), SolfiV2.parse_market_type (b :: l) = some b) := by
  refine ⟨fun t => ?_, fun d => ?_, fun b l => rfl⟩
  · simp only [SolfiV2.is_valid_market_type, SolfiV2.MARKET_TYPE_FF,
      SolfiV2.MARKET_TYPE_FE, SolfiV2.MARKET_TYPE_FD, SolfiV2.MARKET_TYPE_FC,
      Bool.or_eq_true, beq_iff_eq]
    tauto
  · cases d <;> simp [SolfiV2.parse_market_type]

theorem getD_outside_16 (A B C : List Nat) (x y : Nat) (hA : A.length = 8)
    (hB : B.length = 8) (j : Nat) (hne : j ≠ 16) :
    (A ++ (B ++ (x :: C))).getD j 0 = (A ++ (B ++ (y :: C))).getD j 0 := by
  rcases Nat.lt_or_ge j 8 with h8 | h8
  · have l1 : (A ++ (B ++ (x :: C)))[j]? = A[j]? :=
      List.getElem?_append_left (by omega)
    have l2 : (A ++ (B ++ (y :: C)))[j]? = A[j]? :=
      List.getElem?_append_left (by omega)
    rw [List.getD_eq_getElem?_getD, List.getD_eq_getElem?_getD, l1, l2]
  · rcases Nat.lt_or_ge j 16 with h16 | h16
    · have l1 : (A ++ (B ++ (x :: C)))[j]? = B[j - 8]? := by
        rw [List.getElem?_append_right (by omega), hA,
          List.getElem?_append_left (by omega)]
      have l2 : (A ++ (B ++ (y :: C)))[j]? = B[j - 8]? := by
        rw [List.getElem?_append_right (by omega), hA,
          List.getElem?_append_left (by omega)]
      rw [List.getD_eq_getElem?_getD, List.getD_eq_getElem?_getD, l1, l2]
    · have h17 : 17 ≤ j := by omega
      have l1 : (A ++ (B ++ (x :: C)))[j]? = C[j - 17]? := by
        rw [List.getElem?_append_right (by omega), hA,
          List.getElem?_append_right (by omega), hB,
          show j - 8 - 8 = (j - 17) + 1 by omega, List.getElem?_cons_succ]
      have l2 : (A ++ (B ++ (y :: C)))[j]? = C[j - 17]? := by
        rw [List.getElem?_append_right (by omega), hA,
          List.getElem?_append_right (by omega), hB,
          show j - 8 - 8 = (j - 17) + 1 by omega, List.getElem?_cons_succ]
      rw [List.getD_eq_getElem?_getD, List.getD_eq_getElem?_getD, l1, l2]

/-- Claim C9: HumidiFi's to_bytes_v1 and to_bytes_v2 agree on every byte
except byte 16; at byte 16 they differ exactly in bit 0 (their XOR is 1)
and share the upper seven bits of the constant 0x38; in both versions bytes
0..8 encode swap_id XOR XOR_KEYS 0 little-endian, bytes 8..16 equal
XOR_KEYS 1 little-endian, and bytes 17..25 equal XOR_KEYS 3 little-endian. -/
theorem c9_v1_v2_byte_relation :
    ∀ a : Humidifi.SwapArgs,
      (∀ j : Nat, j < 25 → j ≠ 16 →
        a.to_bytes_v1.getD j 0 = a.to_bytes_v2.getD j 0) ∧
      (a.to_bytes_v1.getD 16 0) ^^^ (a.to_bytes_v2.getD 16 0) = 1 ∧
      a.to_bytes_v1.getD 16 0 / 2 = 0x38 / 2 ∧
      a.to_bytes_v2.getD 16 0 / 2 = 0x38 / 2 ∧
      a.to_bytes_v1.take 8 = toLeBytes 8 (a.swap_id ^^^ 0xfb5ce87aae443c38) ∧
      a.to_bytes_v2.take 8 = toLeBytes 8 (a.swap_id ^^^ 0xfb5ce87aae443c38) ∧
      (a.to_bytes_v1.drop 8).take 8 = toLeBytes 8 0x04a2178451bac3c7 ∧
      (a.to_bytes_v2.drop 8).take 8 = toLeBytes 8 0x04a2178451bac3c7 ∧
      a.to_bytes_v1.drop 17 = toLeBytes 8 0x04a0178651b8c3c5 ∧
      a.to_bytes_v2.drop 17 = toLeBytes 8 0x04a0178651b8c3c5 := by
  intro a
  obtain ⟨s, d⟩ := a
  refine ⟨?_, ?_, ?_, ?_, rfl, rfl, rfl, rfl, rfl, rfl⟩
  · intro j hj hne
    rw [to_bytes_v1_eq, to_bytes_v2_eq]
    exact getD_outside_16 _ _ _ _ _ (toLeBytes_length 8 _) (toLeBytes_length 8 _) j hne
  · rw [to_bytes_v1_byte16, to_bytes_v2_byte16]
    cases d <;>
      simp [Humidifi.SwapDirection.to_swap_v1_bool,
        Humidifi.SwapDirection.to_swap_v2_bool]
  · rw [to_bytes_v1_byte16]
    cases d <;>
      simp [Humidifi.SwapDirection.to_swap_v1_bool]
  · rw [to_bytes_v2_byte16]
    cases d <;>
      simp [Humidifi.SwapDirection.to_swap_v2_bool]

/-- Claim C9 witness at a concrete argument value and byte position. -/
theorem c9_v1_v2_byte_relation_witness :
    (Humidifi.SwapArgs.mk 99 Humidifi.SwapDirection.QuoteToBase).to_bytes_v1.getD 0 0 =
      (Humidifi.SwapArgs.mk 99 Humidifi.SwapDirection.QuoteToBase).to_bytes_v2.getD 0 0 :=
  (c9_v1_v2_byte_relation
    (Humidifi.SwapArgs.mk 99 Humidifi.SwapDirection.QuoteToBase)).1 0
    (by norm_num) (by norm_num)

/-- Claim C10: calculate_output_amount is total and exact for u64 inputs:
it returns 0 whenever any operand is 0, otherwise exactly
floor (reserve_out * amount_in / (reserve_in + amount_in)) over unbounded
integers, and the result always fits in a u64 so the final cast is
lossless. -/
theorem c10_calculate_output :
    ∀ amount_in reserve_in reserve_out : Nat,
      amount_in < 2 ^ 64 → reserve_in < 2 ^ 64 → reserve_out < 2 ^ 64 →
      SolfiV2.calculate_output_amount amount_in reserve_in reserve_out < 2 ^ 64 ∧
      ((amount_in = 0 ∨ reserve_in = 0 ∨ reserve_out = 0) →
        SolfiV2.calculate_output_amount amount_in reserve_in reserve_out = 0) ∧
      (0 < amount_in → 0 < reserve_in → 0 < reserve_out →
        SolfiV2.calculate_output_amount amount_in reserve_in reserve_out =
          reserve_out * amount_in / (reserve_in + amount_in)) := by
  intro ai ri ro hai hri hro
  by_cases h0 : ri = 0 ∨ ro = 0 ∨ ai = 0
  · have hz : SolfiV2.calculate_output_amount ai ri ro = 0 := by
      simp only [SolfiV2.calculate_output_amount]
      rw [if_pos]
      simp only [Bool.or_eq_true, beq_iff_eq]
      tauto
    refine ⟨by rw [hz]; positivity, fun _ => hz, fun h1 h2 h3 => ?_⟩
    rcases h0 with h | h | h <;> omega
  · push_neg at h0
    obtain ⟨hri0, hro0, hai0⟩ := h0
    have hml : ro * ai < 2 ^ 128 := by
      have h1 : ro * ai ≤ (2 ^ 64 - 1) * (2 ^ 64 - 1) :=
        Nat.mul_le_mul (by omega) (by omega)
      calc ro * ai ≤ (2 ^ 64 - 1) * (2 ^ 64 - 1) := h1
        _ < 2 ^ 128 := by norm_num
    have hdl : ri + ai < 2 ^ 128 := by
      have h2 : (2 : Nat) ^ 64 + 2 ^ 64 ≤ 2 ^ 128 := by norm_num
      omega
    have heq : SolfiV2.calculate_output_amount ai ri ro =
        ro * ai / (ri + ai) % 2 ^ 64 := by
      simp only [SolfiV2.calculate_output_amount]
      rw [if_neg (by simp only [Bool.or_eq_true, beq_iff_eq]; tauto),
        if_pos hml, if_pos hdl]
    have hq : ro * ai / (ri + ai) < 2 ^ 64 := by
      have h1 : ro * ai / (ri + ai) ≤ ro * ai / ai :=
        Nat.div_le_div_left (by omega) (by omega)
      have h2 : ro * ai / ai = ro := by rw [Nat.mul_div_cancel _ (by omega)]
      omega
    rw [heq, Nat.mod_eq_of_lt hq]
    exact ⟨hq, fun h => by tauto, fun _ _ _ => rfl⟩

/-- Claim C10 witness: the value from the source's own unit test. -/
theorem c10_calculate_output_witness :
    SolfiV2.calculate_output_amount 1000 10000 10000 =
      10000 * 1000 / (10000 + 1000) ∧
    10000 * 1000 / (10000 + 1000) = 909 :=
  ⟨(c10_calculate_output 1000 10000 10000 (by norm_num) (by norm_num)
      (by norm_num)).2.2 (by norm_num) (by norm_num) (by norm_num),
   by norm_num⟩
